import Mathlib

/-!
Verification of the data-shaping pipeline of the Mortgage Pulse analytics
dashboard (`analytics/app.py`): the Firestore loader, the metric and funnel
aggregator, and the financial field extractor.

Modelling conventions:

* JSON values are modelled by the inductive type `Json` below.  A Python
  string that holds serialized JSON is modelled by its parse outcome,
  an `Option Json`: `none` stands for a string on which `json.loads`
  raises (malformed JSON), `some j` for a string that parses to the
  value `j`.
* Python `datetime` values are modelled by the `DateTime` structure
  (calendar fields only); chronological comparison is the lexicographic
  order on those fields.  A possibly timezone-aware Firestore timestamp
  is a `TZTimestamp`: a `DateTime` plus an optional UTC-offset tag, so
  that `replace(tzinfo=None)` is expressible.
* The Firestore read itself is external I/O; its outcome is passed to
  the loader as an `Except String` value: `Except.error msg` stands for
  any exception raised during the fetch (with `str(e) = msg`),
  `Except.ok` for a successful read of the two document lists.
* `datetime.now()` is passed in explicitly as the `now` argument.
* Python's float division in `conversion_rate` is modelled over `ℚ`.
* Python raises `TypeError` when ordering values of different types;
  accordingly every theorem about an order on extracted step values or
  financial fields restricts to inputs where all these values are
  numbers, which is the only case the source orders successfully.
-/

namespace MortgagePulse

/-- JSON values, as produced by `json.loads`.  Objects are association
lists; a parsed Python dict has pairwise-distinct keys, and lookups take
the first binding. -/
inductive Json where
  | null
  | bool (b : Bool)
  | num (n : Int)
  | str (s : String)
  | arr (elems : List Json)
  | obj (fields : List (String × Json))
  deriving Repr

mutual

/-- Structural equality test on JSON values (Python `==` on parsed values). -/
def Json.beq : Json → Json → Bool
  | .null, .null => true
  | .bool a, .bool b => a == b
  | .num a, .num b => a == b
  | .str a, .str b => a == b
  | .arr xs, .arr ys => Json.beqArr xs ys
  | .obj kvs, .obj lvs => Json.beqObj kvs lvs
  | _, _ => false

/-- Elementwise equality test on JSON arrays. -/
def Json.beqArr : List Json → List Json → Bool
  | [], [] => true
  | x :: xs, y :: ys => Json.beq x y && Json.beqArr xs ys
  | _, _ => false

/-- Elementwise equality test on JSON object fields. -/
def Json.beqObj : List (String × Json) → List (String × Json) → Bool
  | [], [] => true
  | (k, v) :: xs, (l, w) :: ys => k == l && Json.beq v w && Json.beqObj xs ys
  | _, _ => false

end

mutual

/-- `Json.beq` decides equality.  Stated with `def` so that the
`DecidableEq` instance right below can be built from it. -/
def Json.beq_iff : ∀ a b : Json, Json.beq a b = true ↔ a = b
  | .null, b => by cases b <;> simp [Json.beq]
  | .bool a, b => by cases b <;> simp [Json.beq]
  | .num a, b => by cases b <;> simp [Json.beq]
  | .str a, b => by cases b <;> simp [Json.beq]
  | .arr xs, b => by
      cases b <;> simp [Json.beq]
      exact Json.beqArr_iff xs _
  | .obj kvs, b => by
      cases b <;> simp [Json.beq]
      exact Json.beqObj_iff kvs _

/-- `Json.beqArr` decides equality of JSON arrays. -/
def Json.beqArr_iff : ∀ xs ys : List Json, Json.beqArr xs ys = true ↔ xs = ys
  | [], ys => by cases ys <;> simp [Json.beqArr]
  | x :: xs, ys => by
      cases ys with
      | nil => simp [Json.beqArr]
      | cons y ys =>
        simp [Json.beqArr, Json.beq_iff x y, Json.beqArr_iff xs ys]

/-- `Json.beqObj` decides equality of JSON object field lists. -/
def Json.beqObj_iff : ∀ xs ys : List (String × Json), Json.beqObj xs ys = true ↔ xs = ys
  | [], ys => by cases ys <;> simp [Json.beqObj]
  | (k, v) :: xs, ys => by
      cases ys with
      | nil => simp [Json.beqObj]
      | cons y ys =>
        obtain ⟨l, w⟩ := y
        simp [Json.beqObj, Json.beq_iff v w, Json.beqObj_iff xs ys, and_assoc]

end

instance : DecidableEq Json := fun a b =>
  decidable_of_iff (Json.beq a b = true) (Json.beq_iff a b)

/-- Python `dict.get(key)` on a parsed JSON object: the value bound to
`key`, when present. -/
def lookupField : List (String × Json) → String → Option Json
  | [], _ => none
  | (k, v) :: rest, key => if k = key then some v else lookupField rest key

/-- Is this JSON value a number? -/
def Json.isNum : Json → Bool
  | .num _ => true
  | _ => false

/-- The integer carried by a JSON number, `0` on every other value.
Only used in theorem statements about all-number collections. -/
def Json.numVal : Json → Int
  | .num n => n
  | _ => 0

/-- A type tag for JSON values.  Python can only order two step values of
the same type; the pandas sort succeeds exactly on same-rank (numeric)
keys, and `stepLE` below extends that order totally by rank so that the
sort is everywhere defined in the model. -/
def Json.rank : Json → Int
  | .null => 0
  | .bool _ => 1
  | .num _ => 2
  | .str _ => 3
  | .arr _ => 4
  | .obj _ => 5

/-- The order used to sort funnel rows by step: by numeric value on
numbers (the case the source actually sorts), by type rank elsewhere. -/
def stepLE (a b : Json) : Prop :=
  a.rank < b.rank ∨ (a.rank = b.rank ∧ a.numVal ≤ b.numVal)

instance : DecidableRel stepLE := fun _ _ =>
  inferInstanceAs (Decidable (_ ∨ _))

instance : IsTotal Json stepLE :=
  ⟨fun a b => by unfold stepLE; omega⟩

instance : IsTrans Json stepLE :=
  ⟨fun a b c hab hbc => by unfold stepLE at *; omega⟩

/-- A timezone-naive Python `datetime`, by calendar fields. -/
structure DateTime where
  year : Nat
  month : Nat
  day : Nat
  hour : Nat
  minute : Nat
  second : Nat
  deriving DecidableEq, Repr

/-- Chronological strict order on datetimes: lexicographic on the
calendar fields. -/
def DateTime.ltp (a b : DateTime) : Prop :=
  a.year < b.year ∨ (a.year = b.year ∧
    (a.month < b.month ∨ (a.month = b.month ∧
      (a.day < b.day ∨ (a.day = b.day ∧
        (a.hour < b.hour ∨ (a.hour = b.hour ∧
          (a.minute < b.minute ∨ (a.minute = b.minute ∧
            a.second < b.second)))))))))

instance : DecidableRel DateTime.ltp := fun _ _ =>
  inferInstanceAs (Decidable (_ ∨ _))

/-- Chronological non-strict order: `a` is no later than `b`. -/
def DateTime.lep (a b : DateTime) : Prop := ¬ DateTime.ltp b a

/-- Boolean chronological comparison. -/
def DateTime.ltb (a b : DateTime) : Bool := decide (DateTime.ltp a b)

/-- The later of two datetimes, as computed by a pandas `max` scan. -/
def DateTime.maxD (a b : DateTime) : DateTime :=
  if DateTime.ltb a b then b else a

/-- Zero-pad a numeric field to two digits (`strftime` `%m`, `%d`, `%H`, `%M`). -/
def pad2 (n : Nat) : String :=
  if n < 10 then "0" ++ toString n else toString n

/-- Zero-pad a year to four digits (`strftime` `%Y`). -/
def pad4 (n : Nat) : String :=
  if n < 10 then "000" ++ toString n
  else if n < 100 then "00" ++ toString n
  else if n < 1000 then "0" ++ toString n
  else toString n

/-- `strftime` with format `%Y-%m-%d %H:%M`: minute precision, seconds dropped. -/
def DateTime.fmtMinute (t : DateTime) : String :=
  pad4 t.year ++ "-" ++ pad2 t.month ++ "-" ++ pad2 t.day ++ " " ++
    pad2 t.hour ++ ":" ++ pad2 t.minute

/-- A Firestore timestamp as deserialized by the client: a clock reading
plus an optional timezone tag (UTC offset in minutes) when the value is
timezone-aware. -/
structure TZTimestamp where
  dt : DateTime
  tz : Option Int
  deriving DecidableEq, Repr

/-- Python `ts.replace(tzinfo=None)`: keep the clock fields, drop the
timezone tag. -/
def TZTimestamp.replaceTz (t : TZTimestamp) : TZTimestamp :=
  { dt := t.dt, tz := none }

/-- The `created_at` assignment of the loader loops: a present (truthy)
`createdAt` is kept with its timezone stripped, a missing or null one
defaults to `datetime.now()`. -/
def load_created_at (now : DateTime) : Option TZTimestamp → DateTime
  | none => now
  | some ts => ts.replaceTz.dt

/-- One row of the loaded submissions table. -/
structure Submission where
  id : String
  created_at : DateTime
  lead_name : String
  lead_phone : String
  lead_email : String
  session_id : String
  full_data_json : Option Json
  deriving DecidableEq, Repr

/-- One row of the loaded events table. -/
structure Event where
  id : String
  created_at : DateTime
  session_id : String
  event_type : String
  event_data_json : Option Json
  deriving DecidableEq, Repr

/-- A raw Firestore document of the `submissions` collection.  `none`
models a missing key (or, for `createdAt`, a null value, which the
source's truthiness test treats like a missing one). -/
structure SubmissionDoc where
  id : String
  createdAt : Option TZTimestamp
  leadName : Option String
  leadPhone : Option String
  leadEmail : Option String
  sessionId : Option String
  fullDataJson : Option Json
  deriving DecidableEq, Repr

/-- A raw Firestore document of the `events` collection. -/
structure EventDoc where
  id : String
  createdAt : Option TZTimestamp
  sessionId : Option String
  eventType : Option String
  eventData : Option Json
  deriving DecidableEq, Repr

/-- The body of the submissions loop of `load_firestore_data`: map one
document to a flat row.  `json.dumps` of the (defaulted) `fullDataJson`
dict followed by the later `json.loads` round-trips, so the serialized
column is modelled by its parse outcome `some (… .getD (Json.obj []))`. -/
def submission_row (now : DateTime) (d : SubmissionDoc) : Submission :=
  { id := d.id
    created_at := load_created_at now d.createdAt
    lead_name := d.leadName.getD ""
    lead_phone := d.leadPhone.getD ""
    lead_email := d.leadEmail.getD ""
    session_id := d.sessionId.getD ""
    full_data_json := some (d.fullDataJson.getD (Json.obj [])) }

/-- The body of the events loop of `load_firestore_data`. -/
def event_row (now : DateTime) (d : EventDoc) : Event :=
  { id := d.id
    created_at := load_created_at now d.createdAt
    session_id := d.sessionId.getD ""
    event_type := d.eventType.getD ""
    event_data_json := some (d.eventData.getD (Json.obj [])) }

/-- The `cache_info` dict returned by `load_firestore_data`: row counts
and load time on success, the stringified exception under the `error`
key on failure. -/
inductive CacheInfo where
  | ok (submissions_count : Nat) (events_count : Nat) (last_updated : DateTime)
  | error (msg : String)
  deriving DecidableEq, Repr

/-- `load_firestore_data`: turn the outcome of the Firestore fetch into
the two row lists plus cache metadata.  The whole body sits in one
`try`/`except`, so any exception during the fetch (`Except.error`)
yields two empty frames and an error payload instead of propagating. -/
def load_firestore_data (now : DateTime)
    (fetch : Except String (List SubmissionDoc × List EventDoc)) :
    List Submission × List Event × CacheInfo :=
  match fetch with
  | .error e => ([], [], CacheInfo.error e)
  | .ok (sdocs, edocs) =>
      (sdocs.map (submission_row now), edocs.map (event_row now),
        CacheInfo.ok sdocs.length edocs.length now)

/-- `total_leads = len(df_subs) if not df_subs.empty else 0`. -/
def total_leads (subs : List Submission) : Nat := subs.length

/-- `unique_sessions = df_events['session_id'].nunique() if not df_events.empty else 0`. -/
def unique_sessions (events : List Event) : Nat :=
  ((events.map Event.session_id).dedup).length

/-- `conversion_rate = (total_leads / unique_sessions * 100) if unique_sessions > 0 else 0`,
with Python's float division modelled over `ℚ`. -/
def conversion_rate (subs : List Submission) (events : List Event) : ℚ :=
  if 0 < unique_sessions events then
    (total_leads subs : ℚ) / (unique_sessions events : ℚ) * 100
  else 0

/-- The `Last Lead` metric: `df_subs['created_at'].max().strftime('%Y-%m-%d %H:%M')`
when submissions exist, the `N/A` sentinel otherwise. -/
def last_lead (subs : List Submission) : String :=
  match subs with
  | [] => "N/A"
  | s :: rest =>
      DateTime.fmtMinute ((rest.map Submission.created_at).foldl DateTime.maxD s.created_at)

/-- `get_step`: parse the event payload and read its `step` key, with
`0` as fallback.  `none` (malformed JSON) lands in the bare `except`;
a parse result that is not an object makes `data.get` raise
`AttributeError`, also caught by the bare `except`; an object without a
`step` key takes `dict.get`'s default.  A present `step` value is
returned unchanged, whatever its type. -/
def get_step (json_str : Option Json) : Json :=
  match json_str with
  | none => Json.num 0
  | some (Json.obj kvs) => (lookupField kvs "step").getD (Json.num 0)
  | some _ => Json.num 0

/-- `step_events = df_events[df_events['event_type'] == 'step_view']`. -/
def step_events (events : List Event) : List Event :=
  events.filter (fun e => e.event_type == "step_view")

/-- The `step_num` column: `step_events['event_data_json'].apply(get_step)`. -/
def stepOf (e : Event) : Json := get_step e.event_data_json

/-- The distinct sessions observed at step `s`, the sessions counted by
`groupby('step_num')['session_id'].nunique()` for that group. -/
def sessionsAtStep (events : List Event) (s : Json) : List String :=
  ((((step_events events).filter (fun e => stepOf e == s)).map Event.session_id)).dedup

/-- The `Users` entry of the funnel row for step `s`. -/
def usersAtStep (events : List Event) (s : Json) : Nat :=
  (sessionsAtStep events s).length

/-- The distinct step values, the group keys of `groupby('step_num')`. -/
def funnel_keys (events : List Event) : List Json :=
  (((step_events events).map stepOf)).dedup

/-- `funnel_data`: one `(Step, Users)` row per distinct step value,
sorted by step (`groupby` + `sort_values('Step')`).  On a mixed-type
step column the source's `sort_values` raises `TypeError` while this
model sorts by the `stepLE` totalization, so theorems assert the table's
value only on all-number-step batches, where the two agree. -/
def funnel_data (events : List Event) : List (Json × Nat) :=
  (List.insertionSort stepLE (funnel_keys events)).map
    (fun s => (s, usersAtStep events s))

/-- The record produced by `extract_financials` for one submission. -/
structure Financials where
  property_value : Json
  mortgage_balance : Json
  current_payment : Json
  deriving DecidableEq, Repr

/-- The all-default record of `extract_financials`. -/
def zeroFinancials : Financials :=
  { property_value := Json.num 0, mortgage_balance := Json.num 0, current_payment := Json.num 0 }

/-- `extract_financials`: parse `full_data_json` and read the three
fields with `dict.get` defaults; `currentPayment` wins over
`mortgagePayment`.  Malformed JSON hits the `except` branch, a non-object
parse result makes `data.get` raise and hits it too; both give the
all-zero record. -/
def extract_financials (json_str : Option Json) : Financials :=
  match json_str with
  | some (Json.obj kvs) =>
      { property_value := (lookupField kvs "propertyValue").getD (Json.num 0)
        mortgage_balance := (lookupField kvs "mortgageBalance").getD (Json.num 0)
        current_payment :=
          (lookupField kvs "currentPayment").getD
            ((lookupField kvs "mortgagePayment").getD (Json.num 0)) }
  | _ => zeroFinancials

/-- Elementwise `> 0` of the dataframe filter, on one JSON value.  The
source compares with Python `>`, which succeeds on numbers; theorems
about this filter restrict to all-number records. -/
def jsonGtZero : Json → Bool
  | .num n => decide (0 < n)
  | _ => false

/-- The row predicate of `(df_financials > 0).any(axis=1)`: some field
is strictly positive. -/
def informative (f : Financials) : Bool :=
  jsonGtZero f.property_value || jsonGtZero f.mortgage_balance ||
    jsonGtZero f.current_payment

/-- `df_financials_clean = df_financials[(df_financials > 0).any(axis=1)]`. -/
def df_financials_clean (fs : List Financials) : List Financials :=
  fs.filter informative

/-! Concrete sample rows, used by the evaluation theorems below. -/

/-- A fixed clock reading. -/
def dt0 : DateTime := ⟨2024, 1, 1, 0, 0, 0⟩

/-- A step-view event at step `2` from session `sA`. -/
def evStepTwo : Event :=
  ⟨"1", dt0, "sA", "step_view", some (Json.obj [("step", Json.num 2)])⟩

/-- A step-view event at step `1` from session `sB`. -/
def evStepOne : Event :=
  ⟨"2", dt0, "sB", "step_view", some (Json.obj [("step", Json.num 1)])⟩

/-- An event of another type, invisible to the funnel. -/
def evClick : Event :=
  ⟨"3", dt0, "sC", "click", some (Json.obj [("step", Json.num 9)])⟩

/-- A step-view event whose payload string is malformed JSON (its parse
outcome is `none`). -/
def evMalformed : Event :=
  ⟨"4", dt0, "sD", "step_view", none⟩

/-- A step-view event whose `step` is the JSON string `"2"`, not the
number `2`, from session `sE`. -/
def evStepStrTwo : Event :=
  ⟨"5", dt0, "sE", "step_view", some (Json.obj [("step", Json.str "2")])⟩

/-- A sample batch of events with integer steps only. -/
def sampleEvents : List Event := [evStepTwo, evStepOne, evClick]

/-- A sample batch of events containing a malformed step-view payload. -/
def sampleEventsMalformed : List Event := [evStepTwo, evStepOne, evMalformed]

/-- A sample submission. -/
def subEarly : Submission :=
  ⟨"a", ⟨2024, 1, 1, 5, 6, 7⟩, "Ada", "", "", "sA", none⟩

/-- A later sample submission. -/
def subLate : Submission :=
  ⟨"b", ⟨2024, 3, 5, 12, 34, 56⟩, "Bob", "", "", "sB", none⟩

/-- A sample submissions table. -/
def sampleSubs : List Submission := [subEarly]

/-- A financial record with one strictly positive field. -/
def posFinancials : Financials :=
  ⟨Json.num 5, Json.num 0, Json.num 0⟩

/-- A timezone-aware sample timestamp. -/
def tsAware : TZTimestamp := ⟨⟨2023, 7, 8, 9, 10, 11⟩, some 120⟩

/-- A submission document whose `createdAt` is present. -/
def sdWithTs : SubmissionDoc :=
  ⟨"d1", some tsAware, some "Ada", none, none, some "sA", none⟩

/-- An event document whose `createdAt` is missing. -/
def edNoTs : EventDoc :=
  ⟨"d2", none, some "sA", some "step_view", some (Json.obj [("step", Json.num 1)])⟩

/-! Helper lemmas. -/

/-- The left argument is no later than the maximum. -/
theorem DateTime.lep_maxD_left (a b : DateTime) : DateTime.lep a (DateTime.maxD a b) := by
  unfold DateTime.maxD DateTime.ltb
  split
  · next h =>
      have h' := of_decide_eq_true h
      unfold DateTime.lep DateTime.ltp at *
      omega
  · next h =>
      have h' : ¬ DateTime.ltp a b := by simpa using h
      unfold DateTime.lep DateTime.ltp at *
      omega

/-- The right argument is no later than the maximum. -/
theorem DateTime.lep_maxD_right (a b : DateTime) : DateTime.lep b (DateTime.maxD a b) := by
  unfold DateTime.maxD DateTime.ltb
  split
  · next h =>
      have h' := of_decide_eq_true h
      unfold DateTime.lep DateTime.ltp at *
      omega
  · next h =>
      have h' : ¬ DateTime.ltp a b := by simpa using h
      unfold DateTime.lep DateTime.ltp at *
      omega

/-- Chronological order is transitive. -/
theorem DateTime.lep_trans {a b c : DateTime} (hab : DateTime.lep a b)
    (hbc : DateTime.lep b c) : DateTime.lep a c := by
  unfold DateTime.lep DateTime.ltp at *
  omega

/-- The maximum of two datetimes is one of them. -/
theorem DateTime.maxD_choice (a b : DateTime) :
    DateTime.maxD a b = a ∨ DateTime.maxD a b = b := by
  unfold DateTime.maxD
  split
  · exact Or.inr rfl
  · exact Or.inl rfl

/-- A fold of `maxD` computes a genuine maximum: it returns the seed or
a list element, and nothing folded over is later than it. -/
theorem foldl_maxD_spec (ts : List DateTime) (a : DateTime) :
    (ts.foldl DateTime.maxD a = a ∨ ts.foldl DateTime.maxD a ∈ ts) ∧
      DateTime.lep a (ts.foldl DateTime.maxD a) ∧
      ∀ u ∈ ts, DateTime.lep u (ts.foldl DateTime.maxD a) := by
  induction ts generalizing a with
  | nil =>
      refine ⟨Or.inl rfl, ?_, by simp⟩
      show DateTime.lep a a
      unfold DateTime.lep DateTime.ltp
      omega
  | cons t ts ih =>
      obtain ⟨hmem, hseed, hall⟩ := ih (DateTime.maxD a t)
      rw [List.foldl_cons]
      refine ⟨?_, ?_, ?_⟩
      · rcases hmem with h | h
        · rcases DateTime.maxD_choice a t with hc | hc
          · exact Or.inl (h.trans hc)
          · exact Or.inr (by rw [h, hc]; exact List.mem_cons_self _ _)
        · exact Or.inr (List.mem_cons_of_mem _ h)
      · exact DateTime.lep_trans (DateTime.lep_maxD_left a t) hseed
      · intro u hu
        rcases List.mem_cons.mp hu with rfl | hu'
        · exact DateTime.lep_trans (DateTime.lep_maxD_right a u) hseed
        · exact hall u hu'

/-- On two JSON numbers, the sort order is the numeric order. -/
theorem stepLE_numVal {a b : Json} (ha : a.isNum = true) (hb : b.isNum = true) :
    stepLE a b ↔ a.numVal ≤ b.numVal := by
  cases a <;> simp [Json.isNum] at ha
  cases b <;> simp [Json.isNum] at hb
  simp [stepLE, Json.rank, Json.numVal]

/-- On a JSON number, the `> 0` test of the dataframe filter is the
numeric test. -/
theorem jsonGtZero_iff {j : Json} (hj : j.isNum = true) :
    jsonGtZero j = true ↔ 0 < j.numVal := by
  cases j <;> simp [Json.isNum] at hj
  simp [jsonGtZero, Json.numVal]

/-- Restricting the events to the step-view ones first does not change
the step-view selection. -/
theorem step_events_filter (events : List Event) :
    step_events (events.filter (fun e => e.event_type == "step_view")) =
      step_events events := by
  unfold step_events
  rw [List.filter_filter]
  congr 1
  funext e
  rw [Bool.and_self]

/-- Membership in the funnel keys is membership among the extracted
steps of the step-view events. -/
theorem mem_funnel_keys_iff {events : List Event} {s : Json} :
    s ∈ funnel_keys events ↔
      ∃ e ∈ events, e.event_type = "step_view" ∧ stepOf e = s := by
  unfold funnel_keys step_events
  rw [List.mem_dedup, List.mem_map]
  constructor
  · rintro ⟨e, he, rfl⟩
    rw [List.mem_filter] at he
    exact ⟨e, he.1, by simpa using he.2, rfl⟩
  · rintro ⟨e, he, ht, rfl⟩
    exact ⟨e, List.mem_filter.mpr ⟨he, by simpa using ht⟩, rfl⟩

/-- A row sits in the funnel table exactly when its step is a funnel key
and its user count is the distinct-session count of that step. -/
theorem mem_funnel_data_iff {events : List Event} {s : Json} {u : Nat} :
    (s, u) ∈ funnel_data events ↔
      s ∈ funnel_keys events ∧ u = usersAtStep events s := by
  unfold funnel_data
  rw [List.mem_map]
  constructor
  · rintro ⟨k, hk, hEq⟩
    have h1 : k = s := congrArg Prod.fst hEq
    have h2 : usersAtStep events k = u := congrArg Prod.snd hEq
    subst h1
    exact ⟨(List.perm_insertionSort stepLE _).mem_iff.mp hk, h2.symm⟩
  · rintro ⟨hs, rfl⟩
    exact ⟨s, (List.perm_insertionSort stepLE _).mem_iff.mpr hs, rfl⟩

/-- Every funnel key of an all-integer-step batch is a JSON number. -/
theorem isNum_of_mem_funnel_keys {events : List Event}
    (h : ∀ e ∈ events, e.event_type = "step_view" → (stepOf e).isNum = true)
    {s : Json} (hs : s ∈ funnel_keys events) : s.isNum = true := by
  obtain ⟨e, he, ht, rfl⟩ := mem_funnel_keys_iff.mp hs
  exact h e he ht

/-! Claim theorems. -/

/-- C1: for every collection of loaded events whose step-view events all
carry integer steps, the funnel computation (1) considers exactly the
events whose `event_type` is `step_view`, (2) has one row per extracted
step value, a step value appearing exactly when some step-view event
extracts to it via `get_step` (which defaults to `0` on parse failure or
a missing key), (3) counts the distinct `session_id` values per step,
and (4) returns the rows sorted ascending by step. -/
theorem funnel_data_spec (events : List Event)
    (h : ∀ e ∈ events, e.event_type = "step_view" → (stepOf e).isNum = true) :
    funnel_data events = funnel_data (events.filter (fun e => e.event_type == "step_view")) ∧
    (∀ s : Json, (∃ u, (s, u) ∈ funnel_data events) ↔
        ∃ e ∈ events, e.event_type = "step_view" ∧ stepOf e = s) ∧
    ((funnel_data events).map Prod.fst).Nodup ∧
    (∀ s u, (s, u) ∈ funnel_data events →
        u = ((((step_events events).filter (fun e => stepOf e == s)).map
          Event.session_id)).toFinset.card) ∧
    (funnel_data events).Pairwise (fun r r' => r.1.numVal ≤ r'.1.numVal) := by
  refine ⟨?_, ?_, ?_, ?_, ?_⟩
  · unfold funnel_data funnel_keys usersAtStep sessionsAtStep
    rw [step_events_filter]
  · intro s
    constructor
    · rintro ⟨u, hu⟩
      exact mem_funnel_keys_iff.mp (mem_funnel_data_iff.mp hu).1
    · intro hs
      exact ⟨usersAtStep events s,
        mem_funnel_data_iff.mpr ⟨mem_funnel_keys_iff.mpr hs, rfl⟩⟩
  · unfold funnel_data
    rw [List.map_map]
    have hcomp : (Prod.fst ∘ fun s => (s, usersAtStep events s)) = id := by
      funext s; rfl
    rw [hcomp, List.map_id]
    exact ((List.perm_insertionSort stepLE _).nodup_iff).mpr (List.nodup_dedup _)
  · intro s u hu
    have := (mem_funnel_data_iff.mp hu).2
    rw [this]
    unfold usersAtStep sessionsAtStep
    rw [List.card_toFinset]
  · unfold funnel_data
    rw [List.pairwise_map]
    have hsorted : List.Sorted stepLE (List.insertionSort stepLE (funnel_keys events)) :=
      List.sorted_insertionSort stepLE _
    refine hsorted.imp_of_mem ?_
    intro a b ha hb hab
    have ha' : a ∈ funnel_keys events :=
      (List.perm_insertionSort stepLE _).mem_iff.mp ha
    have hb' : b ∈ funnel_keys events :=
      (List.perm_insertionSort stepLE _).mem_iff.mp hb
    exact (stepLE_numVal (isNum_of_mem_funnel_keys h ha')
      (isNum_of_mem_funnel_keys h hb')).mp hab

/-- C1 evaluation: the theorem applied to a concrete batch, keeping its
sortedness conclusion. -/
theorem funnel_data_spec_witness :
    (funnel_data sampleEvents).Pairwise (fun r r' => r.1.numVal ≤ r'.1.numVal) :=
  (funnel_data_spec sampleEvents (by decide)).2.2.2.2

/-- C2: the conversion rate is `total_leads / unique_sessions * 100`
when some session exists, is exactly `0` when no session exists, and is
always nonnegative; in the model it is a total function, so no input
makes it fail. -/
theorem conversion_rate_spec (subs : List Submission) (events : List Event) :
    (unique_sessions events = 0 → conversion_rate subs events = 0) ∧
    (0 < unique_sessions events →
      conversion_rate subs events =
        (total_leads subs : ℚ) / (unique_sessions events : ℚ) * 100) ∧
    0 ≤ conversion_rate subs events := by
  refine ⟨fun h => ?_, fun h => ?_, ?_⟩
  · unfold conversion_rate
    rw [if_neg]
    omega
  · unfold conversion_rate
    rw [if_pos h]
  · unfold conversion_rate
    split
    · positivity
    · exact le_refl 0

/-- C2 evaluation: both branches of the theorem at concrete inputs. -/
theorem conversion_rate_spec_witness :
    conversion_rate sampleSubs sampleEvents =
      (total_leads sampleSubs : ℚ) / (unique_sessions sampleEvents : ℚ) * 100 ∧
    conversion_rate sampleSubs [] = 0 :=
  ⟨(conversion_rate_spec sampleSubs sampleEvents).2.1 (by decide),
    (conversion_rate_spec sampleSubs []).1 (by decide)⟩

/-- C3: on a parsed object, `extract_financials` reads `propertyValue`
and `mortgageBalance` with default `0`, and the payment as
`currentPayment` when present, else `mortgagePayment`, else `0`; in
particular the documented example with no payment field. -/
theorem extract_financials_spec :
    (∀ kvs : List (String × Json),
      extract_financials (some (Json.obj kvs)) =
        { property_value := (lookupField kvs "propertyValue").getD (Json.num 0)
          mortgage_balance := (lookupField kvs "mortgageBalance").getD (Json.num 0)
          current_payment :=
            (lookupField kvs "currentPayment").getD
              ((lookupField kvs "mortgagePayment").getD (Json.num 0)) }) ∧
    extract_financials (some (Json.obj
        [("propertyValue", Json.num 300000), ("mortgageBalance", Json.num 150000)])) =
      { property_value := Json.num 300000
        mortgage_balance := Json.num 150000
        current_payment := Json.num 0 } :=
  ⟨fun _ => rfl, by decide⟩

/-- C4: malformed JSON (`none`) and every non-object parse result give
the all-zero record; the model is a total function, so no input raises. -/
theorem extract_financials_nonobject :
    extract_financials none = zeroFinancials ∧
    extract_financials (some Json.null) = zeroFinancials ∧
    extract_financials (some (Json.arr [Json.num 1, Json.num 2])) = zeroFinancials ∧
    ∀ j : Json, (∀ kvs, j ≠ Json.obj kvs) →
      extract_financials (some j) = zeroFinancials := by
  refine ⟨rfl, rfl, rfl, fun j hj => ?_⟩
  cases j with
  | obj kvs => exact absurd rfl (hj kvs)
  | null => rfl
  | bool b => rfl
  | num n => rfl
  | str s => rfl
  | arr xs => rfl

/-- C4 evaluation: the non-object branch of the theorem at a concrete
non-object value. -/
theorem extract_financials_nonobject_witness :
    extract_financials (some (Json.str "oops")) = zeroFinancials :=
  extract_financials_nonobject.2.2.2 (Json.str "oops") (fun _ h => Json.noConfusion h)

/-- C5: a step-view event with a malformed payload extracts step `0`,
so its session is counted in the `Step = 0` bucket, which therefore
appears in the funnel with at least one user; the aggregation is a total
function, so the batch never fails. -/
theorem malformed_step_event_spec (events : List Event) (e : Event)
    (he : e ∈ events) (ht : e.event_type = "step_view")
    (hm : e.event_data_json = none) :
    get_step e.event_data_json = Json.num 0 ∧
    e.session_id ∈ sessionsAtStep events (Json.num 0) ∧
    ∃ u, (Json.num 0, u) ∈ funnel_data events ∧ 1 ≤ u := by
  have hstep : stepOf e = Json.num 0 := by
    unfold stepOf
    rw [hm]
    rfl
  have hev : e ∈ step_events events :=
    List.mem_filter.mpr ⟨he, by simpa using ht⟩
  have hsess : e.session_id ∈ sessionsAtStep events (Json.num 0) := by
    unfold sessionsAtStep
    rw [List.mem_dedup]
    exact List.mem_map_of_mem _
      (List.mem_filter.mpr ⟨hev, by simp [hstep]⟩)
  refine ⟨by rw [hm]; rfl, hsess, usersAtStep events (Json.num 0), ?_, ?_⟩
  · exact mem_funnel_data_iff.mpr
      ⟨mem_funnel_keys_iff.mpr ⟨e, he, ht, hstep⟩, rfl⟩
  · have : sessionsAtStep events (Json.num 0) ≠ [] :=
      List.ne_nil_of_mem hsess
    have hlen : 0 < (sessionsAtStep events (Json.num 0)).length :=
      List.length_pos.mpr this
    unfold usersAtStep
    omega

/-- C5 evaluation: the theorem at a concrete batch containing a
malformed step-view event. -/
theorem malformed_step_event_witness :
    evMalformed.session_id ∈ sessionsAtStep sampleEventsMalformed (Json.num 0) :=
  (malformed_step_event_spec sampleEventsMalformed evMalformed
    (by decide) (by decide) (by decide)).2.1

/-- C6: on an empty submissions table `last_lead` is the `N/A` sentinel
(and a total function, so no failure); on a non-empty one it is the
maximum `created_at` formatted to minute precision, and in particular on
two submissions in strict chronological order it picks the later one. -/
theorem last_lead_spec :
    last_lead [] = "N/A" ∧
    (∀ (s : Submission) (rest : List Submission), ∃ t : DateTime,
        t ∈ (s :: rest).map Submission.created_at ∧
        (∀ u ∈ (s :: rest).map Submission.created_at, DateTime.lep u t) ∧
        last_lead (s :: rest) = DateTime.fmtMinute t) ∧
    (∀ s1 s2 : Submission, DateTime.ltp s1.created_at s2.created_at →
        last_lead [s1, s2] = DateTime.fmtMinute s2.created_at) := by
  refine ⟨rfl, ?_, ?_⟩
  · intro s rest
    obtain ⟨hmem, hseed, hall⟩ :=
      foldl_maxD_spec (rest.map Submission.created_at) s.created_at
    refine ⟨(rest.map Submission.created_at).foldl DateTime.maxD s.created_at,
      ?_, ?_, rfl⟩
    · rcases hmem with h | h
      · rw [h]; exact List.mem_cons_self _ _
      · exact List.mem_cons_of_mem _ h
    · intro u hu
      rcases List.mem_cons.mp hu with rfl | hu'
      · exact hseed
      · exact hall u hu'
  · intro s1 s2 hlt
    have hmax : DateTime.maxD s1.created_at s2.created_at = s2.created_at := by
      unfold DateTime.maxD DateTime.ltb
      rw [if_pos (by simpa using hlt)]
    show DateTime.fmtMinute
        (([s2.created_at]).foldl DateTime.maxD s1.created_at) = _
    rw [List.foldl_cons, hmax]
    rfl

/-- C6 evaluation: the two-submission branch of the theorem at concrete
submissions, with the formatted maximum computed. -/
theorem last_lead_spec_witness :
    last_lead [subEarly, subLate] = "2024-03-05 12:34" := by
  have h := last_lead_spec.2.2 subEarly subLate (by decide)
  rw [h]
  decide

/-- C7 counterexample: the pre-visualization filter does not keep every
record with a nonzero field — a record whose only nonzero field is the
negative number `-1` is dropped, because the source keeps a row only
when some field is strictly positive (`(df_financials > 0).any(axis=1)`),
not merely nonzero. -/
theorem df_financials_clean_counterexample :
    (Financials.mk (Json.num (-1)) (Json.num 0) (Json.num 0)).property_value ≠
        Json.num 0 ∧
    df_financials_clean
        [Financials.mk (Json.num (-1)) (Json.num 0) (Json.num 0)] = [] := by
  decide

/-- C7 (amended): on numeric records, the pre-visualization filter keeps
exactly the records with at least one strictly positive field; every
all-zero record is dropped, and so is every record whose fields are all
nonpositive. -/
theorem df_financials_clean_spec (fs : List Financials)
    (hnum : ∀ f ∈ fs, f.property_value.isNum = true ∧
      f.mortgage_balance.isNum = true ∧ f.current_payment.isNum = true) :
    ∀ f : Financials, f ∈ df_financials_clean fs ↔
      f ∈ fs ∧ (0 < f.property_value.numVal ∨ 0 < f.mortgage_balance.numVal ∨
        0 < f.current_payment.numVal) := by
  intro f
  unfold df_financials_clean
  rw [List.mem_filter]
  constructor
  · rintro ⟨hf, hinf⟩
    obtain ⟨h1, h2, h3⟩ := hnum f hf
    refine ⟨hf, ?_⟩
    unfold informative at hinf
    rcases Bool.or_eq_true_iff.mp hinf with h | h
    · rcases Bool.or_eq_true_iff.mp h with h' | h'
      · exact Or.inl ((jsonGtZero_iff h1).mp h')
      · exact Or.inr (Or.inl ((jsonGtZero_iff h2).mp h'))
    · exact Or.inr (Or.inr ((jsonGtZero_iff h3).mp h))
  · rintro ⟨hf, hpos⟩
    obtain ⟨h1, h2, h3⟩ := hnum f hf
    refine ⟨hf, ?_⟩
    unfold informative
    rcases hpos with h | h | h
    · rw [Bool.or_eq_true_iff, Bool.or_eq_true_iff]
      exact Or.inl (Or.inl ((jsonGtZero_iff h1).mpr h))
    · rw [Bool.or_eq_true_iff, Bool.or_eq_true_iff]
      exact Or.inl (Or.inr ((jsonGtZero_iff h2).mpr h))
    · rw [Bool.or_eq_true_iff]
      exact Or.inr ((jsonGtZero_iff h3).mpr h)

/-- C7 evaluation: the amended theorem at a concrete table, giving the
membership characterization of a kept record. -/
theorem df_financials_clean_spec_witness :
    posFinancials ∈ df_financials_clean [posFinancials, zeroFinancials] ↔
      posFinancials ∈ [posFinancials, zeroFinancials] ∧
        (0 < posFinancials.property_value.numVal ∨
          0 < posFinancials.mortgage_balance.numVal ∨
          0 < posFinancials.current_payment.numVal) :=
  df_financials_clean_spec [posFinancials, zeroFinancials] (by decide) posFinancials

/-- C8: when the Firestore fetch fails with any exception, the loader
returns an empty submissions list, an empty events list, and a cache
payload carrying the error string; in the model the loader is a total
function of the fetch outcome, so the failure never escapes it. -/
theorem load_firestore_data_error (now : DateTime) (msg : String) :
    load_firestore_data now (Except.error msg) = ([], [], CacheInfo.error msg) :=
  rfl

/-- C9: the loader's `created_at` of a submission or event row is the
load-time clock when the document's `createdAt` is missing or null, and
otherwise the document's timestamp with its timezone stripped
(`replace(tzinfo=None)`), hence timezone-naive. -/
theorem loader_created_at_spec (now : DateTime) (sd : SubmissionDoc) (ed : EventDoc) :
    (sd.createdAt = none → (submission_row now sd).created_at = now) ∧
    (∀ ts, sd.createdAt = some ts →
        (submission_row now sd).created_at = ts.replaceTz.dt ∧ ts.replaceTz.tz = none) ∧
    (ed.createdAt = none → (event_row now ed).created_at = now) ∧
    (∀ ts, ed.createdAt = some ts →
        (event_row now ed).created_at = ts.replaceTz.dt ∧ ts.replaceTz.tz = none) := by
  refine ⟨fun h => ?_, fun ts h => ⟨?_, rfl⟩, fun h => ?_, fun ts h => ⟨?_, rfl⟩⟩
  · show load_created_at now sd.createdAt = now
    rw [h]
    rfl
  · show load_created_at now sd.createdAt = ts.replaceTz.dt
    rw [h]
    rfl
  · show load_created_at now ed.createdAt = now
    rw [h]
    rfl
  · show load_created_at now ed.createdAt = ts.replaceTz.dt
    rw [h]
    rfl

/-- C9 evaluation: the theorem at a concrete pair of documents, one with
a timezone-aware timestamp and one with a missing timestamp. -/
theorem loader_created_at_witness :
    (submission_row dt0 sdWithTs).created_at = tsAware.replaceTz.dt ∧
    (event_row dt0 edNoTs).created_at = dt0 :=
  ⟨((loader_created_at_spec dt0 sdWithTs edNoTs).2.1 tsAware rfl).1,
    (loader_created_at_spec dt0 sdWithTs edNoTs).2.2.1 rfl⟩

/-- C10: when the parsed payload is an object with a `step` key,
`get_step` returns the bound value unchanged, whatever its type; the
JSON string `"2"` is a different value from the number `2`, and on a
concrete batch the two events form two distinct group buckets, each
counting only its own session.  The bucket statements use the grouping
stage only (`funnel_keys`, `sessionsAtStep`): on such a mixed-type key
column the source's final `sort_values('Step')` raises `TypeError`, so
no sorted funnel table is asserted for this batch. -/
theorem get_step_preserves_value (kvs : List (String × Json)) (v : Json)
    (hv : lookupField kvs "step" = some v) :
    get_step (some (Json.obj kvs)) = v ∧
    Json.str "2" ≠ Json.num 2 ∧
    Json.num 2 ∈ funnel_keys [evStepTwo, evStepStrTwo] ∧
    Json.str "2" ∈ funnel_keys [evStepTwo, evStepStrTwo] ∧
    sessionsAtStep [evStepTwo, evStepStrTwo] (Json.num 2) = ["sA"] ∧
    sessionsAtStep [evStepTwo, evStepStrTwo] (Json.str "2") = ["sE"] := by
  refine ⟨?_, by decide, by decide, by decide, by decide, by decide⟩
  show (lookupField kvs "step").getD (Json.num 0) = v
  rw [hv]
  rfl

/-- C10 evaluation: the theorem at a concrete object whose `step` is the
JSON string `"2"`. -/
theorem get_step_preserves_value_witness :
    get_step (some (Json.obj [("step", Json.str "2")])) = Json.str "2" :=
  (get_step_preserves_value [("step", Json.str "2")] (Json.str "2") (by decide)).1

end MortgagePulse
